import Mathlib

/-
Verification development for the Persian financial sentiment repository.

Shallow embedding of `src/text_processor.py` (FinancialTextProcessor) and
`src/sentiment_analyzer.py` (SentimentAnalyzer).  External library calls
(hazm, persian_tools, re, sklearn, joblib) are modelled by concrete
executable Lean functions that preserve exactly the aspects the claims
depend on (determinism, sequencing, fit-state gating, error propagation);
floating-point TF-IDF weighting and the random-forest internals are
abstracted to deterministic integer/rational stand-ins.
-/

namespace IranSentiment

/-! ## Word splitting

Model of whitespace tokenization (hazm `WordTokenizer.tokenize` and
Python `str.split()`): maximal runs of non-whitespace characters. -/

def wordsAux : List Char → List Char → List String
  | [], cur => if cur.isEmpty then [] else [String.mk cur.reverse]
  | c :: cs, cur =>
    if c.isWhitespace then
      if cur.isEmpty then wordsAux cs [] else String.mk cur.reverse :: wordsAux cs []
    else
      wordsAux cs (c :: cur)

def words (t : String) : List String := wordsAux t.data []

/-- Model of `hazm.WordTokenizer().tokenize` (used at
`text_processor.py:136` and `text_processor.py:161`): whitespace word
splitting; hazm never emits a token containing a whitespace character. -/
def tokenize (t : String) : List String := words t

/-! ## The five normalization steps of `normalize_text`
(`text_processor.py:98-123`), each modelled as a concrete total function. -/

/-- Model of `hazm.Normalizer().normalize`: orthographic letter-form
unification (Arabic yeh/kaf to Persian forms). -/
def unifyChar (c : Char) : Char :=
  if c = 'ي' then 'ی' else if c = 'ك' then 'ک' else c

def hazmNormalizeModel (t : String) : String := String.mk (t.data.map unifyChar)

/-- Model of `persian_tools.digits.convert_to_en`: Persian digit glyphs
to ASCII digits. -/
def faDigit (c : Char) : Char :=
  if c = '۰' then '0' else if c = '۱' then '1' else if c = '۲' then '2'
  else if c = '۳' then '3' else if c = '۴' then '4' else if c = '۵' then '5'
  else if c = '۶' then '6' else if c = '۷' then '7' else if c = '۸' then '8'
  else if c = '۹' then '9' else c

def convert_to_en (t : String) : String := String.mk (t.data.map faDigit)

/-- Word-level model of `re.sub(r'http\S+|www.\S+', '', text)`
(`text_processor.py:115`): drop whitespace-delimited words that are URLs. -/
def isUrlWord (w : String) : Bool := w.startsWith "http" || w.startsWith "www."

def removeUrlsModel (t : String) : String :=
  " ".intercalate ((words t).filter (fun w => !isUrlWord w))

/-- Model of Python regex `\w` for this corpus: ASCII alphanumerics,
underscore, and the Arabic Unicode block (Persian letters). -/
def isWordChar (c : Char) : Bool :=
  c.isAlphanum || c = '_' || (0x600 ≤ c.toNat && c.toNat ≤ 0x6FF)

/-- Model of `re.sub(r'[^\w\s$%+-]', ' ', text)` (`text_processor.py:118`). -/
def keepChar (c : Char) : Bool :=
  isWordChar c || c.isWhitespace || c = '$' || c = '%' || c = '+' || c = '-'

def removeSpecialModel (t : String) : String :=
  String.mk (t.data.map (fun c => if keepChar c then c else ' '))

/-- Model of `' '.join(text.split())` (`text_processor.py:121`). -/
def collapseWsModel (t : String) : String := " ".intercalate (words t)

/-! ## `normalize_text` (`text_processor.py:98-123`)

The method body is a straight-line sequence of five assignments
`text = step(text)` with no try/except; to express the claims about its
failure policy we parameterize over the step functions, each of which
may either return a value or raise (`Except.error`). -/

structure NormSteps where
  hazmNormalize : String → Except String String
  convertDigits : String → Except String String
  removeUrls : String → Except String String
  removeSpecial : String → Except String String
  collapseWs : String → Except String String

/-- Embedding of `FinancialTextProcessor.normalize_text`: the five steps
applied in source order; the source has no local exception handling, so a
raising step aborts the whole call. -/
def normalize_text (s : NormSteps) (text : String) : Except String String := do
  let t1 ← s.hazmNormalize text
  let t2 ← s.convertDigits t1
  let t3 ← s.removeUrls t2
  let t4 ← s.removeSpecial t3
  s.collapseWs t4

/-- The concrete step functions actually installed by the constructor
(the real libraries, which are total on `str` inputs). -/
def defaultSteps : NormSteps :=
  ⟨fun t => .ok (hazmNormalizeModel t), fun t => .ok (convert_to_en t),
   fun t => .ok (removeUrlsModel t), fun t => .ok (removeSpecialModel t),
   fun t => .ok (collapseWsModel t)⟩

/-- `normalize_text` specialised to the default (total) steps. -/
def normalize_total (t : String) : String :=
  collapseWsModel (removeSpecialModel (removeUrlsModel (convert_to_en (hazmNormalizeModel t))))

/-! ## Financial term taxonomy (`text_processor.py:48-67`)

A Python dict preserves insertion order, so the registration order of
the categories is the literal order below. -/

def financial_terms : List (String × List String) :=
  [("price", ["قیمت", "نرخ", "ارزش", "بها"]),
   ("increase", ["افزایش", "رشد", "صعود", "بالا رفتن"]),
   ("decrease", ["کاهش", "نزول", "افت", "پایین آمدن"]),
   ("stock", ["سهام", "سهم", "اوراق بهادار"]),
   ("market", ["بازار", "بورس", "تالار"]),
   ("company", ["شرکت", "بنگاه", "کارخانه"]),
   ("profit", ["سود", "منفعت", "درآمد"]),
   ("loss", ["زیان", "ضرر", "کسر"]),
   ("dividend", ["سود سهام", "سود تقسیمی"]),
   ("volume", ["حجم", "مقدار", "تعداد"]),
   ("trade", ["معامله", "خرید و فروش", "مبادله"]),
   ("index", ["شاخص", "نماگر", "اندیکاتور"]),
   ("forecast", ["پیش‌بینی", "تخمین", "برآورد"]),
   ("analysis", ["تحلیل", "بررسی", "ارزیابی"]),
   ("report", ["گزارش", "خلاصه", "نتیجه"])]

/-- The inner `for category, variations in ...: if token in variations:
append(category); break` loop of `extract_financial_terms`
(`text_processor.py:140-143`): the first registered category whose
variant list contains the token, if any. -/
def firstCategory (terms : List (String × List String)) (token : String) : Option String :=
  match terms with
  | [] => none
  | (cat, vars) :: rest => if token ∈ vars then some cat else firstCategory rest token

/-- Embedding of `FinancialTextProcessor.extract_financial_terms`
(`text_processor.py:125-145`): tokenize, then collect the first matching
category of each token (tokens with no match contribute nothing). -/
def extract_financial_terms (text : String) : List String :=
  (tokenize text).filterMap (firstCategory financial_terms)

/-! ## Stopwords (`text_processor.py:69-96`, no custom file supplied) -/

def stopwords : List String :=
  ["و", "در", "به", "از", "که", "این", "است", "را", "با", "برای",
   "آن", "یک", "های", "یا", "اما", "تا", "هم", "شود", "کرد", "شد",
   "بود", "دارد", "همه", "همچنین", "می", "کنند", "می‌شود", "می‌کند",
   "تاریخ", "زمان", "ساعت", "روز", "ماه", "سال", "دقیقه",
   "ثانیه", "هفته", "فصل", "دوره", "مدت", "زمانی"]

/-! ## `process_text` (`text_processor.py:147-182`) -/

structure ProcessedText where
  original_text : String
  normalized_text : String
  tokens : List String
  stems : List String
  financial_terms : List String
  term_frequencies : List (String × Nat)
deriving DecidableEq

/-- Model of `collections.Counter(filtered_tokens)`: each distinct token
paired with its multiplicity. -/
def termFrequencies (tokens : List String) : List (String × Nat) :=
  tokens.dedup.map fun t => (t, tokens.count t)

/-- Embedding of `FinancialTextProcessor.process_text`
(`text_processor.py:147-182`), parameterized over the normalization
steps and the stemmer (`hazm.Stemmer().stem`, an external total
function on tokens). -/
def process_text (s : NormSteps) (stemF : String → String) (text : String) :
    Except String ProcessedText := do
  let normalized ← normalize_text s text
  let tokens := tokenize normalized
  let filtered_tokens := tokens.filter (fun tok => !(stopwords.contains tok))
  let stems := filtered_tokens.map stemF
  let fterms := extract_financial_terms normalized
  let term_freq := termFrequencies filtered_tokens
  return ⟨text, normalized, filtered_tokens, stems, fterms, term_freq⟩

/-! ## SentimentAnalyzer (`src/sentiment_analyzer.py`)

The analyzer owns a TF-IDF vectorizer, a random-forest classifier, an
ad-hoc `vectorizer_fitted` flag (a dynamically added attribute), and a
metadata dict.  Feature values are modelled as term counts (`Nat`); the
IDF reweighting is a deterministic bijection on the information the
claims use and is abstracted away. -/

abbrev Matrix := List (List Nat)

/-- Model of `sklearn.feature_extraction.text.TfidfVectorizer`:
the constructor arguments plus the internal learned vocabulary
(`none` until `fit_transform` runs). -/
structure Vectorizer where
  max_features : Nat
  ngram_lo : Nat
  ngram_hi : Nat
  vocab : Option (List String)
deriving DecidableEq

/-- N-grams for the (1,2) range configured at `sentiment_analyzer.py:39-43`:
unigram tokens plus adjacent-pair bigrams. -/
def bigrams (ws : List String) : List String :=
  (ws.zip ws.tail).map fun p => p.1 ++ " " ++ p.2

def grams (text : String) : List String :=
  tokenize text ++ bigrams (tokenize text)

/-- Vocabulary learned by `fit_transform`: the distinct n-grams of the
fitted corpus, capped at `max_features`. -/
def buildVocab (maxf : Nat) (texts : List String) : List String :=
  ((texts.map grams).flatten.dedup).take maxf

/-- One feature row: per-vocabulary-entry term counts (the TF part of
TF-IDF; out-of-vocabulary n-grams are silently dropped). -/
def vecRow (voc : List String) (text : String) : List Nat :=
  voc.map fun w => (grams text).count w

/-- `TfidfVectorizer.fit_transform`: learn and lock the vocabulary, then
transform. -/
def fit_transform (v : Vectorizer) (texts : List String) : Matrix × Vectorizer :=
  let voc := buildVocab v.max_features texts
  (texts.map (vecRow voc), { v with vocab := some voc })

/-- `TfidfVectorizer.transform`: requires a fitted vocabulary, raising
sklearn's NotFittedError otherwise. -/
def transform (v : Vectorizer) (texts : List String) : Except String Matrix :=
  match v.vocab with
  | none => .error "NotFittedError"
  | some voc => .ok (texts.map (vecRow voc))

/-- Model of `sklearn.ensemble.RandomForestClassifier`: constructor
arguments plus fit state (`none` before `fit`).  The fitted predictor is
modelled as a deterministic nearest-row classifier over the memorized
training set — a stand-in for the ensemble that preserves determinism
and the fitted/unfitted distinction. -/
structure Classifier where
  n_estimators : Nat
  max_depth : Nat
  random_state : Nat
  fitState : Option (List (List Nat × Int))
deriving DecidableEq

def l1dist (a b : List Nat) : Nat :=
  ((a.zip b).map fun p => max p.1 p.2 - min p.1 p.2).sum

def classify (data : List (List Nat × Int)) (x : List Nat) : Int :=
  match data with
  | [] => 0
  | d :: ds => (ds.foldl (fun best p => if l1dist p.1 x < l1dist best.1 x then p else best) d).2

def fitClassifier (c : Classifier) (x : Matrix) (y : List Int) : Classifier :=
  { c with fitState := some (x.zip y) }

/-- `model.predict`: raises NotFittedError before `fit`. -/
def classifierPredict (c : Classifier) (x : Matrix) : Except String (List Int) :=
  match c.fitState with
  | none => .error "NotFittedError"
  | some d => .ok (x.map (classify d))

/-! ## Metrics (`sklearn.metrics`), over `ℚ` in place of floats -/

/-- Per-class precision and recall plus overall accuracy: executable
model of `classification_report(..., output_dict=True)`. -/
structure Report where
  perClass : List (Int × ℚ × ℚ)
  accuracy : ℚ
deriving DecidableEq

def accuracyScore (yTrue yPred : List Int) : ℚ :=
  (((yTrue.zip yPred).filter fun p => p.1 == p.2).length : ℚ) / (yTrue.length : ℚ)

def classificationReport (yTrue yPred : List Int) : Report :=
  let pairs := yTrue.zip yPred
  let classes := (yTrue ++ yPred).dedup
  ⟨classes.map fun c =>
      (c,
       ((pairs.filter fun p => p.1 == c && p.2 == c).length : ℚ) /
         ((pairs.filter fun p => p.2 == c).length : ℚ),
       ((pairs.filter fun p => p.1 == c && p.2 == c).length : ℚ) /
         ((pairs.filter fun p => p.1 == c).length : ℚ)),
   accuracyScore yTrue yPred⟩

/-- Model of `sklearn.metrics.confusion_matrix(...).tolist()`: a
class-by-class grid of (true, predicted) pair counts. -/
def confusionMatrix (yTrue yPred : List Int) : List (List Nat) :=
  let classes := (yTrue ++ yPred).dedup
  classes.map fun a =>
    classes.map fun b => ((yTrue.zip yPred).filter fun p => p.1 == a && p.2 == b).length

/-! ## Metadata (`sentiment_analyzer.py:51-57`), timestamps as `Nat` -/

structure TrainInfo where
  train_size : Nat
  test_size : Nat
  feature_count : Nat
deriving DecidableEq

structure EvalMetrics where
  classification_report : Report
  confusion_matrix : List (List Nat)
  accuracy : ℚ
deriving DecidableEq

structure Metadata where
  version : String
  created_at : Nat
  last_updated : Nat
  performance_metrics : Option (Report × Report)
  training_data_info : Option TrainInfo
  evaluation_metrics : Option EvalMetrics
deriving DecidableEq

/-! ## Analyzer state and methods -/

structure AnalyzerState where
  vectorizer : Vectorizer
  model : Classifier
  vectorizer_fitted : Bool
  metadata : Metadata
deriving DecidableEq

/-- `SentimentAnalyzer.__init__` (`sentiment_analyzer.py:31-65`) with no
model path: fresh vectorizer and classifier, no `vectorizer_fitted`
attribute (modelled as `false`), initial metadata. -/
def initState (now : Nat) : AnalyzerState :=
  ⟨⟨5000, 1, 2, none⟩, ⟨100, 30, 42, none⟩, false,
   ⟨"1.0.0", now, now, none, none, none⟩⟩

def freshState : AnalyzerState := initState 0

/-- Embedding of `SentimentAnalyzer.preprocess_data`
(`sentiment_analyzer.py:71-94`): batch-process the texts, keep the
normalized text of each, then — if the `vectorizer_fitted` attribute is
absent — `fit_transform` and set the attribute, else `transform`.
Returned alongside the result is the (possibly mutated) object state. -/
def preprocess_data (st : AnalyzerState) (texts : List String) :
    Except String Matrix × AnalyzerState :=
  let normalized := texts.map normalize_total
  if st.vectorizer_fitted then
    match transform st.vectorizer normalized with
    | .error e => (.error e, st)
    | .ok x => (.ok x, st)
  else
    let fv := fit_transform st.vectorizer normalized
    (.ok fv.1, { st with vectorizer := fv.2, vectorizer_fitted := true })

/-! ## `train_test_split` (sklearn): deterministic shuffle + split

sklearn shuffles with a PRNG seeded by `random_state` and takes the
test set from the front of the permutation; we model the PRNG with a
linear congruential generator driving a Fisher-Yates selection.  The
claims depend only on the split being a deterministic function of
`(texts, labels, test_size, seed)`. -/

def lcg (s : Nat) : Nat := (1103515245 * s + 12345) % 2147483648

def shuffleAux : Nat → Nat → List Nat → List Nat
  | 0, _, _ => []
  | fuel + 1, s, l =>
    if l.length = 0 then [] else
      let i := s % l.length
      l.getD i 0 :: shuffleAux fuel (lcg s) (l.eraseIdx i)

def permOf (seed n : Nat) : List Nat := shuffleAux n seed (List.range n)

def ceilNat (q : ℚ) : Nat := q.ceil.toNat

def train_test_split (texts : List String) (labels : List Int)
    (test_size : ℚ) (seed : Nat) :
    List String × List String × List Int × List Int :=
  let n := texts.length
  let nTest := ceilNat (test_size * n)
  let perm := permOf seed n
  let testIdx := perm.take nTest
  let trainIdx := perm.drop nTest
  (trainIdx.filterMap (texts.get? ·), testIdx.filterMap (texts.get? ·),
   trainIdx.filterMap (labels.get? ·), testIdx.filterMap (labels.get? ·))

/-- Embedding of `SentimentAnalyzer.train` (`sentiment_analyzer.py:96-148`):
split, preprocess train then test partition, fit the classifier on the
train features, report metrics on both partitions, update metadata. -/
def train (st : AnalyzerState) (texts : List String) (labels : List Int)
    (test_size : ℚ) (random_state : Nat) (now : Nat) :
    Except String (Report × Report) × AnalyzerState :=
  let sp := train_test_split texts labels test_size random_state
  let xTrain := sp.1
  let xTest := sp.2.1
  let yTrain := sp.2.2.1
  let yTest := sp.2.2.2
  match preprocess_data st xTrain with
  | (.error e, st1) => (.error e, st1)
  | (.ok xTrainP, st1) =>
    match preprocess_data st1 xTest with
    | (.error e, st2) => (.error e, st2)
    | (.ok xTestP, st2) =>
      let m := fitClassifier st2.model xTrainP yTrain
      let st3 := { st2 with model := m }
      match classifierPredict m xTrainP, classifierPredict m xTestP with
      | .ok trainPred, .ok testPred =>
        let trainMetrics := classificationReport yTrain trainPred
        let testMetrics := classificationReport yTest testPred
        let md := { st3.metadata with
          last_updated := now,
          performance_metrics := some (trainMetrics, testMetrics),
          training_data_info :=
            some ⟨xTrain.length, xTest.length, (xTrainP.headD []).length⟩ }
        (.ok (trainMetrics, testMetrics), { st3 with metadata := md })
      | .error e, _ => (.error e, st3)
      | _, .error e => (.error e, st3)

/-- Embedding of `SentimentAnalyzer.predict` (`sentiment_analyzer.py:201-218`),
returning the predicted labels (the floating-point probability array is
outside the embedding; no claim touches it). -/
def predict (st : AnalyzerState) (texts : List String) :
    Except String (List Int) × AnalyzerState :=
  match preprocess_data st texts with
  | (.error e, st1) => (.error e, st1)
  | (.ok x, st1) =>
    match classifierPredict st1.model x with
    | .error e => (.error e, st1)
    | .ok labels => (.ok labels, st1)

/-- Embedding of `SentimentAnalyzer.evaluate` (`sentiment_analyzer.py:220-245`). -/
def evaluate (st : AnalyzerState) (texts : List String) (labels : List Int) :
    Except String EvalMetrics × AnalyzerState :=
  match predict st texts with
  | (.error e, st1) => (.error e, st1)
  | (.ok predLabels, st1) =>
    let em : EvalMetrics :=
      ⟨classificationReport labels predLabels,
       confusionMatrix labels predLabels,
       accuracyScore labels predLabels⟩
    (.ok em, { st1 with metadata := { st1.metadata with evaluation_metrics := some em } })

/-! ## Artifact store (`save_model`/`load_model`,
`sentiment_analyzer.py:247-287`)

A model directory holds three files; `none` models a missing or corrupt
file (joblib/json load raising).  joblib round-trips state faithfully, so
the codec is the identity on present blobs. -/

structure Artifact where
  model_blob : Option Classifier
  vectorizer_blob : Option Vectorizer
  metadata_blob : Option Metadata
deriving DecidableEq

/-- Embedding of `SentimentAnalyzer.save_model` (`sentiment_analyzer.py:247-265`). -/
def save_model (st : AnalyzerState) : Artifact :=
  ⟨some st.model, some st.vectorizer, some st.metadata⟩

/-- Embedding of `SentimentAnalyzer.load_model` (`sentiment_analyzer.py:267-287`):
sequentially assign `self.model`, `self.vectorizer`,
`self.vectorizer_fitted = True`, `self.metadata`; the surrounding
try/except logs and re-raises, with no rollback of assignments already
performed. -/
def load_model (st : AnalyzerState) (dir : Artifact) :
    Except String Unit × AnalyzerState :=
  match dir.model_blob with
  | none => (.error "load failed", st)
  | some m =>
    let st1 := { st with model := m }
    match dir.vectorizer_blob with
    | none => (.error "load failed", st1)
    | some v =>
      let st2 := { st1 with vectorizer := v, vectorizer_fitted := true }
      match dir.metadata_blob with
      | none => (.error "load failed", st2)
      | some md => (.ok (), { st2 with metadata := md })

/-! ## General lemmas -/

theorem sum_map_add_nat {α : Type} (l : List α) (f g : α → Nat) :
    (l.map fun x => f x + g x).sum = (l.map f).sum + (l.map g).sum := by
  induction l with
  | nil => simp
  | cons a t ih => simp [ih]; omega

theorem beq_indicator_symm {α : Type} [DecidableEq α] (a x : α) :
    (if x == a then 1 else 0 : Nat) = if a == x then 1 else 0 := by
  by_cases h : x = a
  · subst h; rfl
  · simp [h, Ne.symm h]

theorem sum_map_indicator {α : Type} [DecidableEq α] (l : List α) (a : α) :
    (l.map fun x => if a == x then 1 else 0).sum = l.count a := by
  induction l with
  | nil => simp
  | cons b t ih =>
    simp only [List.map_cons, List.sum_cons, ih, List.count_cons]
    by_cases hba : a = b
    · subst hba; simp; omega
    · simp [hba, Ne.symm hba]

theorem sum_dedup_count {α : Type} [DecidableEq α] (l : List α) :
    (l.dedup.map fun x => l.count x).sum = l.length := by
  induction l with
  | nil => simp
  | cons a t ih =>
    have hcnt : ∀ x : α, (a :: t).count x = t.count x + (if a == x then 1 else 0) := by
      intro x; rw [List.count_cons, beq_indicator_symm]
    by_cases h : a ∈ t
    · rw [List.dedup_cons_of_mem h]
      calc (t.dedup.map fun x => (a :: t).count x).sum
          = (t.dedup.map fun x => t.count x + (if a == x then 1 else 0)).sum := by
            simp only [hcnt]
        _ = (t.dedup.map fun x => t.count x).sum
              + (t.dedup.map fun x => if a == x then 1 else 0).sum :=
            sum_map_add_nat _ _ _
        _ = t.length + t.dedup.count a := by rw [ih, sum_map_indicator]
        _ = (a :: t).length := by
            rw [List.count_dedup]; simp [h]
    · rw [List.dedup_cons_of_not_mem h]
      have hzero : t.count a = 0 := List.count_eq_zero.mpr h
      calc ((a :: t.dedup).map fun x => (a :: t).count x).sum
          = (a :: t).count a + (t.dedup.map fun x => (a :: t).count x).sum := by
            simp
        _ = (a :: t).count a + ((t.dedup.map fun x => t.count x).sum
              + (t.dedup.map fun x => if a == x then 1 else 0).sum) := by
            simp only [hcnt]; rw [sum_map_add_nat]
        _ = (t.count a + 1) + (t.length + t.dedup.count a) := by
            rw [ih, sum_map_indicator, hcnt]; simp
        _ = (a :: t).length := by
            rw [hzero, List.count_dedup]; simp [h]; omega

theorem count_filterMap {α β : Type} [DecidableEq β] (f : α → Option β)
    (l : List α) (b : β) :
    ((l.filterMap f).count b) = (l.filter fun a => f a == some b).length := by
  induction l with
  | nil => simp
  | cons a t ih =>
    cases hfa : f a with
    | none => simp [List.filterMap_cons, hfa, ih]
    | some v =>
      by_cases hvb : v = b
      · subst hvb
        simp [List.filterMap_cons, hfa, List.count_cons, ih]
      · simp [List.filterMap_cons, hfa, List.count_cons, ih, hvb, Ne.symm hvb]

/-! ## Facts about the word splitter and the taxonomy -/

theorem wordsAux_no_ws (cs : List Char) :
    ∀ cur : List Char, (∀ c ∈ cur, c.isWhitespace = false) →
      ∀ t ∈ wordsAux cs cur, ∀ c ∈ t.data, c.isWhitespace = false := by
  induction cs with
  | nil =>
    intro cur hcur t ht c hc
    by_cases he : cur.isEmpty
    · simp [wordsAux, he] at ht
    · simp [wordsAux, he] at ht
      subst ht
      exact hcur c (List.mem_reverse.mp hc)
  | cons a cs ih =>
    intro cur hcur t ht c hc
    by_cases hws : a.isWhitespace
    · by_cases he : cur.isEmpty
      · simp [wordsAux, hws, he] at ht
        exact ih [] (by simp) t ht c hc
      · simp [wordsAux, hws, he] at ht
        rcases ht with ht | ht
        · subst ht
          exact hcur c (List.mem_reverse.mp hc)
        · exact ih [] (by simp) t ht c hc
    · simp only [wordsAux, hws] at ht
      refine ih (a :: cur) ?_ t (by simpa using ht) c hc
      intro d hd
      rcases List.mem_cons.mp hd with hd | hd
      · subst hd; simpa using hws
      · exact hcur d hd

theorem tokenize_no_ws (text : String) :
    ∀ t ∈ tokenize text, ∀ c ∈ t.data, c.isWhitespace = false :=
  wordsAux_no_ws text.data [] (by simp)

theorem firstCategory_mem (terms : List (String × List String)) (tok c : String)
    (h : firstCategory terms tok = some c) :
    ∃ p ∈ terms, p.1 = c ∧ tok ∈ p.2 := by
  induction terms with
  | nil => simp [firstCategory] at h
  | cons q rest ih =>
    rcases q with ⟨cat, vars⟩
    by_cases hv : tok ∈ vars
    · simp [firstCategory, hv] at h
      exact ⟨(cat, vars), by simp, by simp [h], hv⟩
    · simp only [firstCategory, hv, if_false] at h
      obtain ⟨p, hp, hpc, hptv⟩ := ih h
      exact ⟨p, List.mem_cons_of_mem _ hp, hpc, hptv⟩

theorem dividend_vars_have_space :
    ∀ p ∈ financial_terms, p.1 = "dividend" → ∀ v ∈ p.2, (' ' ∈ v.data) := by
  decide

theorem financial_terms_keys_nodup : (financial_terms.map Prod.fst).Nodup := by
  decide

theorem firstCategory_cons (cat : String) (vars : List String)
    (rest : List (String × List String)) (tok : String) :
    firstCategory ((cat, vars) :: rest) tok =
      if tok ∈ vars then some cat else firstCategory rest tok := rfl

/-- `firstCategory` on a list split around one entry, with distinct
category keys: it returns that entry's category exactly when the token
is one of its variants and matches no earlier category. -/
theorem firstCategory_append (pre post : List (String × List String))
    (cat : String) (vars : List String) (tok : String)
    (hnd : ((pre ++ (cat, vars) :: post).map Prod.fst).Nodup) :
    (firstCategory (pre ++ (cat, vars) :: post) tok = some cat) ↔
      (tok ∈ vars ∧ ∀ p ∈ pre, tok ∉ p.2) := by
  induction pre with
  | nil =>
    rw [List.nil_append, firstCategory_cons]
    by_cases hv : tok ∈ vars
    · simp [hv]
    · simp only [hv, if_false, List.not_mem_nil, false_and, iff_false,
        List.nil_append, List.map_cons, List.nodup_cons] at hnd ⊢
      intro hfc
      obtain ⟨p, hp, hpc, _⟩ := firstCategory_mem post tok cat hfc
      exact hnd.1 (hpc ▸ List.mem_map_of_mem Prod.fst hp)
  | cons q pre ih =>
    rcases q with ⟨qc, qv⟩
    rw [List.cons_append, firstCategory_cons]
    simp only [List.cons_append, List.map_cons, List.nodup_cons] at hnd
    by_cases hq : tok ∈ qv
    · simp only [hq, if_true]
      have hne : qc ≠ cat := by
        intro he
        exact hnd.1 (he ▸ (by simp : cat ∈ ((pre ++ (cat, vars) :: post).map Prod.fst)))
      constructor
      · intro hh
        exact absurd (Option.some.inj hh) hne
      · rintro ⟨-, hall⟩
        exact absurd hq (hall (qc, qv) (List.mem_cons_self _ _))
    · simp only [hq, if_false]
      rw [ih hnd.2]
      constructor
      · rintro ⟨hv, hall⟩
        refine ⟨hv, ?_⟩
        intro p hp
        rcases List.mem_cons.mp hp with hp | hp
        · subst hp; exact hq
        · exact hall p hp
      · rintro ⟨hv, hall⟩
        exact ⟨hv, fun p hp => hall p (List.mem_cons_of_mem _ hp)⟩

/-! ## Claim C6 -/

/-- C6: for every input text (and any normalization-step and stemmer
behavior), a record returned by `process_text` has a `stems` sequence of
exactly the same length as its `tokens` sequence, and `stems` is the
positional image of `tokens` under the stemmer (stems i is the
morphological reduction of tokens i). -/
theorem process_text_stems_align (s : NormSteps) (stemF : String → String)
    (text : String) (rec : ProcessedText)
    (h : process_text s stemF text = .ok rec) :
    rec.stems.length = rec.tokens.length ∧ rec.stems = rec.tokens.map stemF := by
  cases hn : normalize_text s text with
  | error e => simp [process_text, hn] at h
  | ok n =>
    simp only [process_text, hn, Except.bind, bind, pure, Except.pure, Except.ok.injEq] at h
    subst h
    exact ⟨by simp, rfl⟩

theorem process_text_stems_align_witness :
    (ProcessedText.mk "aa bb" "aa bb" ["aa", "bb"] ["aa", "bb"] []
        [("aa", 1), ("bb", 1)]).stems.length =
      (ProcessedText.mk "aa bb" "aa bb" ["aa", "bb"] ["aa", "bb"] []
        [("aa", 1), ("bb", 1)]).tokens.length ∧
    (ProcessedText.mk "aa bb" "aa bb" ["aa", "bb"] ["aa", "bb"] []
        [("aa", 1), ("bb", 1)]).stems =
      (ProcessedText.mk "aa bb" "aa bb" ["aa", "bb"] ["aa", "bb"] []
        [("aa", 1), ("bb", 1)]).tokens.map id :=
  process_text_stems_align defaultSteps id "aa bb"
    (ProcessedText.mk "aa bb" "aa bb" ["aa", "bb"] ["aa", "bb"] []
      [("aa", 1), ("bb", 1)]) (by rfl)

/-! ## Claim C9 -/

/-- C9: every record returned by `process_text` satisfies
`sum(term_frequencies.values()) <= len(tokens)` over its own token
sequence (in fact the two are equal). -/
theorem process_text_term_freq_le (s : NormSteps) (stemF : String → String)
    (text : String) (rec : ProcessedText)
    (h : process_text s stemF text = .ok rec) :
    ((rec.term_frequencies.map Prod.snd).sum ≤ rec.tokens.length) := by
  cases hn : normalize_text s text with
  | error e => simp [process_text, hn] at h
  | ok n =>
    simp only [process_text, hn, Except.bind, bind, pure, Except.pure, Except.ok.injEq] at h
    subst h
    simp only [termFrequencies, List.map_map]
    refine le_of_eq ?_
    have : (Prod.snd ∘ fun t =>
        ((t : String), ((tokenize n).filter fun tok => !(stopwords.contains tok)).count t)) =
        fun t => ((tokenize n).filter fun tok => !(stopwords.contains tok)).count t := rfl
    rw [this, sum_dedup_count]

theorem process_text_term_freq_le_witness :
    (((ProcessedText.mk "cc cc dd" "cc cc dd" ["cc", "cc", "dd"] ["cc", "cc", "dd"] []
        [("cc", 2), ("dd", 1)]).term_frequencies.map Prod.snd).sum ≤
      (ProcessedText.mk "cc cc dd" "cc cc dd" ["cc", "cc", "dd"] ["cc", "cc", "dd"] []
        [("cc", 2), ("dd", 1)]).tokens.length) :=
  process_text_term_freq_le defaultSteps id "cc cc dd"
    (ProcessedText.mk "cc cc dd" "cc cc dd" ["cc", "cc", "dd"] ["cc", "cc", "dd"] []
      [("cc", 2), ("dd", 1)]) (by rfl)

/-! ## Claim C10 -/

/-- C10: token-category matching compares whole single tokens against
registered variants, and tokens never contain whitespace; both dividend
variants are multi-word, so `extract_financial_terms` never attributes
any token to the dividend category, for every input text. -/
theorem extract_dividend_always_zero (text : String) :
    (extract_financial_terms text).count "dividend" = 0 := by
  rw [List.count_eq_zero]
  intro hmem
  rw [extract_financial_terms, List.mem_filterMap] at hmem
  obtain ⟨tok, htok, hfc⟩ := hmem
  obtain ⟨p, hp, hpc, htv⟩ := firstCategory_mem financial_terms tok "dividend" hfc
  have hsp : ' ' ∈ tok.data := dividend_vars_have_space p hp hpc tok htv
  have hns := tokenize_no_ws text tok htok ' ' hsp
  simp [Char.isWhitespace] at hns

/-! ## Claim C8 -/

/-- C8: for each category of the taxonomy, the number of times
`extract_financial_terms` reports that category equals the number of
tokens of the text that are one of the category's registered variants
and are not a variant of any earlier-registered category (first
registered matching category wins). -/
theorem extract_counts_first_registered (text : String)
    (pre post : List (String × List String)) (cat : String) (vars : List String)
    (h : financial_terms = pre ++ (cat, vars) :: post) :
    (extract_financial_terms text).count cat =
      ((tokenize text).filter fun tok =>
        decide (tok ∈ vars) && pre.all fun p => !decide (tok ∈ p.2)).length := by
  rw [extract_financial_terms, count_filterMap]
  refine congrArg List.length (List.filter_congr ?_)
  intro tok _
  have hnd : ((pre ++ (cat, vars) :: post).map Prod.fst).Nodup :=
    h ▸ financial_terms_keys_nodup
  rw [h, Bool.eq_iff_iff]
  simp only [beq_iff_eq, Bool.and_eq_true, decide_eq_true_eq, List.all_eq_true,
    Bool.not_eq_true', decide_eq_false_iff_not]
  exact firstCategory_append pre post cat vars tok hnd

theorem extract_counts_first_registered_witness :
    (extract_financial_terms "قیمت قیمت نرخ سود").count "price" =
      ((tokenize "قیمت قیمت نرخ سود").filter fun tok =>
        decide (tok ∈ ["قیمت", "نرخ", "ارزش", "بها"]) &&
          ([] : List (String × List String)).all fun p => !decide (tok ∈ p.2)).length :=
  extract_counts_first_registered "قیمت قیمت نرخ سود" [] financial_terms.tail
    "price" ["قیمت", "نرخ", "ارزش", "بها"] rfl

/-! ## Claim C3 -/

/-- Step behaviors with a failing first step (the orthographic
normalization raises). -/
def failFirstSteps : NormSteps :=
  ⟨fun _ => .error "hazm failure", fun t => .ok t, fun t => .ok t,
   fun t => .ok t, fun t => .ok t⟩

/-- C3 counterexample: when the first normalization step raises,
`normalize_text` propagates the fault to its caller instead of catching
it and returning the pre-step value `"abc"` unchanged — refuting the
claim that normalize never propagates a fault and degrades to the
identity at worst. -/
theorem normalize_text_propagates_cex :
    normalize_text failFirstSteps "abc" = .error "hazm failure" := rfl

/-- C3 amended: `normalize_text` applies the five steps (orthographic
normalization, digit conversion, URL removal, special-character removal,
whitespace collapse) in sequence with no local exception handling;
whichever of the five steps is the first to raise, the call aborts and
that step's exception propagates to the caller — the pre-step value is
never substituted. -/
theorem normalize_text_step_fault_propagates (s : NormSteps)
    (text t1 t2 t3 t4 e : String) :
    (s.hazmNormalize text = .error e → normalize_text s text = .error e) ∧
    (s.hazmNormalize text = .ok t1 → s.convertDigits t1 = .error e →
      normalize_text s text = .error e) ∧
    (s.hazmNormalize text = .ok t1 → s.convertDigits t1 = .ok t2 →
      s.removeUrls t2 = .error e → normalize_text s text = .error e) ∧
    (s.hazmNormalize text = .ok t1 → s.convertDigits t1 = .ok t2 →
      s.removeUrls t2 = .ok t3 → s.removeSpecial t3 = .error e →
      normalize_text s text = .error e) ∧
    (s.hazmNormalize text = .ok t1 → s.convertDigits t1 = .ok t2 →
      s.removeUrls t2 = .ok t3 → s.removeSpecial t3 = .ok t4 →
      s.collapseWs t4 = .error e → normalize_text s text = .error e) := by
  refine ⟨fun h1 => ?_, fun h1 h2 => ?_, fun h1 h2 h3 => ?_,
    fun h1 h2 h3 h4 => ?_, fun h1 h2 h3 h4 h5 => ?_⟩
  · simp [normalize_text, h1, Except.bind, bind]
  · simp [normalize_text, h1, h2, Except.bind, bind]
  · simp [normalize_text, h1, h2, h3, Except.bind, bind]
  · simp [normalize_text, h1, h2, h3, h4, Except.bind, bind]
  · simp [normalize_text, h1, h2, h3, h4, h5, Except.bind, bind]

/-- Step behaviors with a failing second step. -/
def digitFailSteps : NormSteps :=
  ⟨fun t => .ok t, fun _ => .error "digit conversion failure", fun t => .ok t,
   fun t => .ok t, fun t => .ok t⟩

/-- Step behaviors with a failing third step. -/
def urlFailSteps : NormSteps :=
  ⟨fun t => .ok t, fun t => .ok t, fun _ => .error "url removal failure",
   fun t => .ok t, fun t => .ok t⟩

/-- Step behaviors with a failing fourth step. -/
def specialFailSteps : NormSteps :=
  ⟨fun t => .ok t, fun t => .ok t, fun t => .ok t,
   fun _ => .error "special char failure", fun t => .ok t⟩

/-- Step behaviors with a failing fifth step. -/
def collapseFailSteps : NormSteps :=
  ⟨fun t => .ok t, fun t => .ok t, fun t => .ok t, fun t => .ok t,
   fun _ => .error "whitespace collapse failure"⟩

theorem normalize_text_step_fault_propagates_witness :
    normalize_text failFirstSteps "xy" = .error "hazm failure" ∧
    normalize_text digitFailSteps "xy" = .error "digit conversion failure" ∧
    normalize_text urlFailSteps "xy" = .error "url removal failure" ∧
    normalize_text specialFailSteps "xy" = .error "special char failure" ∧
    normalize_text collapseFailSteps "xy" = .error "whitespace collapse failure" :=
  ⟨(normalize_text_step_fault_propagates failFirstSteps "xy" "xy" "xy" "xy" "xy"
      "hazm failure").1 rfl,
   (normalize_text_step_fault_propagates digitFailSteps "xy" "xy" "xy" "xy" "xy"
      "digit conversion failure").2.1 rfl rfl,
   (normalize_text_step_fault_propagates urlFailSteps "xy" "xy" "xy" "xy" "xy"
      "url removal failure").2.2.1 rfl rfl rfl,
   (normalize_text_step_fault_propagates specialFailSteps "xy" "xy" "xy" "xy" "xy"
      "special char failure").2.2.2.1 rfl rfl rfl rfl,
   (normalize_text_step_fault_propagates collapseFailSteps "xy" "xy" "xy" "xy" "xy"
      "whitespace collapse failure").2.2.2.2 rfl rfl rfl rfl rfl⟩

/-! ## Claim C1 -/

/-- C1: contrary to the claim, on a fresh analyzer (whose vectorizer has
never been fit) `predict` does not signal a usage error from the
vectorizer: `preprocess_data` silently fits the vectorizer on the
prediction inputs (the state after the call has `vectorizer_fitted =
true` and a vocabulary learned from those inputs), so the Unfit-to-Fit
transition is triggered outside `train`; the call fails only afterwards,
at the never-fitted classifier. -/
theorem predict_unfit_silently_fits :
    freshState.vectorizer_fitted = false ∧
    (preprocess_data freshState ["سهام"]).1 = .ok [[1]] ∧
    (predict freshState ["سهام"]).2.vectorizer_fitted = true ∧
    (predict freshState ["سهام"]).2.vectorizer.vocab = some ["سهام"] ∧
    (predict freshState ["سهام"]).1 = .error "NotFittedError" :=
  ⟨rfl, rfl, rfl, rfl, rfl⟩

/-! ## Claim C2 -/

/-- C2 amended: `load_model` performs the three reads in a fixed order
(classifier, then vectorizer — which also sets the fitted flag — then
metadata) and a failure at any read is raised to the caller; fields
assigned before the failing read keep their new values, and only fields
after the failing read retain their pre-call values. -/
theorem load_model_sequential_updates (st : AnalyzerState) (m : Classifier)
    (v : Vectorizer) (md : Metadata) (ov : Option Vectorizer) (om : Option Metadata) :
    (load_model st ⟨none, ov, om⟩ = (.error "load failed", st)) ∧
    (load_model st ⟨some m, none, om⟩ =
      (.error "load failed", { st with model := m })) ∧
    (load_model st ⟨some m, some v, none⟩ =
      (.error "load failed",
       { st with model := m, vectorizer := v, vectorizer_fitted := true })) ∧
    (load_model st ⟨some m, some v, some md⟩ =
      (.ok (),
       { st with model := m, vectorizer := v, vectorizer_fitted := true,
                 metadata := md })) :=
  ⟨rfl, rfl, rfl, rfl⟩

/-- A fitted classifier blob, distinct from the freshly constructed one. -/
def loadedClf : Classifier := ⟨100, 30, 42, some [(([1] : List Nat), (1 : Int))]⟩

/-- A fitted vectorizer blob, distinct from the freshly constructed one. -/
def loadedVec : Vectorizer := ⟨5000, 1, 2, some ["aa"]⟩

/-- C2 counterexample: a directory whose classifier and vectorizer blobs
load fine but whose metadata document is missing.  The failure is
raised, but the caller's model is partially populated: the classifier
and vectorizer no longer hold their pre-call values (only the metadata
does), refuting the claim that on the error path all three retain their
pre-call values. -/
theorem load_model_partial_population_cex :
    (load_model freshState ⟨some loadedClf, some loadedVec, none⟩).1 =
      .error "load failed" ∧
    (load_model freshState ⟨some loadedClf, some loadedVec, none⟩).2.model ≠
      freshState.model ∧
    (load_model freshState ⟨some loadedClf, some loadedVec, none⟩).2.vectorizer ≠
      freshState.vectorizer ∧
    (load_model freshState ⟨some loadedClf, some loadedVec, none⟩).2.metadata =
      freshState.metadata := by
  refine ⟨rfl, ?_, ?_, rfl⟩ <;> decide

/-! ## Claim C4 -/

/-- Specification-side composition for C4: learn the vocabulary from the
train partition only, fit the classifier on the train features, and only
transform the test partition with that locked vocabulary. -/
def trainSpecResult (st : AnalyzerState) (texts : List String) (labels : List Int)
    (test_size : ℚ) (seed : Nat) : Report × Report :=
  let sp := train_test_split texts labels test_size seed
  let voc := buildVocab st.vectorizer.max_features (sp.1.map normalize_total)
  let rTr := (sp.1.map normalize_total).map (vecRow voc)
  let rTe := (sp.2.1.map normalize_total).map (vecRow voc)
  let fitData := rTr.zip sp.2.2.1
  (classificationReport sp.2.2.1 (rTr.map (classify fitData)),
   classificationReport sp.2.2.2 (rTe.map (classify fitData)))

/-- C4: from a state whose vectorizer was never fit, `train` splits the
data as a deterministic function of the seed, learns the vectorizer
vocabulary from the train partition only (the test partition is never
fit on), and its result is exactly the fit-on-train / transform-test
composition `trainSpecResult`. -/
theorem train_fits_on_train_only (st : AnalyzerState) (texts : List String)
    (labels : List Int) (test_size : ℚ) (seed now : Nat)
    (h : st.vectorizer_fitted = false) :
    (train st texts labels test_size seed now).2.vectorizer.vocab =
      some (buildVocab st.vectorizer.max_features
        ((train_test_split texts labels test_size seed).1.map normalize_total)) ∧
    (train st texts labels test_size seed now).1 =
      .ok (trainSpecResult st texts labels test_size seed) := by
  constructor <;>
    simp [train, preprocess_data, h, fit_transform, transform, fitClassifier,
      classifierPredict, trainSpecResult]

theorem train_fits_on_train_only_witness :
    (train freshState ["aa bb", "cc", "dd"] [1, 0, 1] (1 / 5) 42 7).2.vectorizer.vocab =
      some (buildVocab freshState.vectorizer.max_features
        ((train_test_split ["aa bb", "cc", "dd"] [1, 0, 1] (1 / 5) 42).1.map
          normalize_total)) ∧
    (train freshState ["aa bb", "cc", "dd"] [1, 0, 1] (1 / 5) 42 7).1 =
      .ok (trainSpecResult freshState ["aa bb", "cc", "dd"] [1, 0, 1] (1 / 5) 42) :=
  train_fits_on_train_only freshState ["aa bb", "cc", "dd"] [1, 0, 1] (1 / 5) 42 7 rfl

/-! ## Claim C5 -/

/-- C5: for every trained (vectorizer-fitted) analyzer, `save_model`
followed by `load_model` into a fresh instance succeeds and yields
exactly the same `predict` results (labels and resulting state) on every
sequence of input texts as the original pre-save instance. -/
theorem save_load_roundtrip_predict (st fresh : AnalyzerState)
    (texts : List String) (h : st.vectorizer_fitted = true) :
    (load_model fresh (save_model st)).1 = .ok () ∧
    predict (load_model fresh (save_model st)).2 texts = predict st texts := by
  have hst : (load_model fresh (save_model st)).2 = st := by
    cases st with
    | mk v m f md => subst h; rfl
  exact ⟨rfl, by rw [hst]⟩

/-- A small trained analyzer state (fitted vectorizer and classifier). -/
def sampleTrained : AnalyzerState :=
  ⟨⟨5000, 1, 2, some ["aa"]⟩, ⟨100, 30, 42, some [(([1] : List Nat), (1 : Int))]⟩,
   true, (initState 0).metadata⟩

theorem save_load_roundtrip_predict_witness :
    (load_model freshState (save_model sampleTrained)).1 = .ok () ∧
    predict (load_model freshState (save_model sampleTrained)).2 ["aa"] =
      predict sampleTrained ["aa"] :=
  save_load_roundtrip_predict sampleTrained freshState ["aa"] rfl

/-! ## Claim C7 -/

theorem preprocess_data_preserves_metadata (st : AnalyzerState) (texts : List String) :
    (preprocess_data st texts).2.metadata = st.metadata := by
  unfold preprocess_data
  by_cases h : st.vectorizer_fitted
  · simp only [h, if_true]
    cases transform st.vectorizer (texts.map normalize_total) <;> simp
  · simp [h]

theorem predict_preserves_metadata (st : AnalyzerState) (texts : List String) :
    (predict st texts).2.metadata = st.metadata := by
  have hh := preprocess_data_preserves_metadata st texts
  unfold predict
  split
  · rename_i e s1 heq
    rw [heq] at hh
    simpa using hh
  · rename_i x s1 heq
    rw [heq] at hh
    split <;> simpa using hh

/-- C7: a successful `evaluate` returns the classification report, the
class-by-class confusion matrix and the overall accuracy, stores exactly
that record under the metadata's `evaluation_metrics` field, and leaves
the metadata's `performance_metrics` field unchanged. -/
theorem evaluate_updates_eval_metrics (st : AnalyzerState) (texts : List String)
    (labels preds : List Int) (hp : (predict st texts).1 = .ok preds) :
    (evaluate st texts labels).1 =
      .ok ⟨classificationReport labels preds, confusionMatrix labels preds,
           accuracyScore labels preds⟩ ∧
    (evaluate st texts labels).2.metadata.evaluation_metrics =
      some ⟨classificationReport labels preds, confusionMatrix labels preds,
            accuracyScore labels preds⟩ ∧
    (evaluate st texts labels).2.metadata.performance_metrics =
      st.metadata.performance_metrics := by
  have hmd := predict_preserves_metadata st texts
  cases hpp : predict st texts with
  | mk r s1 =>
    rw [hpp] at hp hmd
    simp only at hp hmd
    subst hp
    refine ⟨?_, ?_, ?_⟩ <;> simp [evaluate, hpp, ← hmd]

theorem evaluate_updates_eval_metrics_witness :
    (evaluate sampleTrained ["aa"] [1]).1 =
      .ok ⟨classificationReport [1] [1], confusionMatrix [1] [1],
           accuracyScore [1] [1]⟩ ∧
    (evaluate sampleTrained ["aa"] [1]).2.metadata.evaluation_metrics =
      some ⟨classificationReport [1] [1], confusionMatrix [1] [1],
            accuracyScore [1] [1]⟩ ∧
    (evaluate sampleTrained ["aa"] [1]).2.metadata.performance_metrics =
      sampleTrained.metadata.performance_metrics :=
  evaluate_updates_eval_metrics sampleTrained ["aa"] [1] [1] (by rfl)

end IranSentiment
